import Mathlib

/-!
# Verification of `process_temperature_data.py` (tsensor_analysis)

Shallow embedding of the core pipeline of `process_temperature_data.py`:
`parse_data_file`, `read_template_mapping`, `calculate_average_temps`,
`write_block_to_excel`, the block-composition loop of `main`, and the
color-scale computation (`apply_color_scale` together with the min/max
step of `main`).

Modelling conventions:
* Python dicts become insertion-ordered association lists; assignment
  `d[k] = v` updates the value in place (keeping the key's position) or
  appends a new entry at the end, exactly like a Python dict.
* Temperatures are embedded as rationals (`ℚ`): the claims are about the
  values computed, and the log grammar `[-\d.]+` only produces finite
  decimal literals.
* Channel numbers are integers (`ℤ`): template cells go through `int()`,
  log channels come from `\d+`.
* The regexes of the source are embedded as explicit matchers on
  character lists.  `\d` and `\s` are modelled as ASCII digits and
  whitespace (`Char.isDigit` / `Char.isWhitespace`).
* Fallible Python operations (`float(...)` on a bad token, `max(...)` on
  an empty sequence) become `Except String` results carrying the
  corresponding `ValueError` message.
* The spreadsheet side effects of openpyxl are modelled by recording the
  numeric cell writes and the title writes; fonts, alignment and cell
  merging carry no values and are not modelled.
-/

/-- Decidable equality for `Except`, needed to `decide` concrete runs. -/
instance {ε α : Type} [DecidableEq ε] [DecidableEq α] : DecidableEq (Except ε α) := fun a b =>
  match a, b with
  | .error e, .error f => decidable_of_iff (e = f) (by simp)
  | .ok x, .ok y => decidable_of_iff (x = y) (by simp)
  | .error _, .ok _ => isFalse (by simp)
  | .ok _, .error _ => isFalse (by simp)

/-- Python dict assignment `d[k] = v` on an insertion-ordered association
list: update in place if the key exists, else append at the end. -/
def pyInsert {α β : Type} [DecidableEq α] : List (α × β) → α → β → List (α × β)
  | [], k, v => [(k, v)]
  | (k', v') :: rest, k, v =>
    if k' = k then (k, v) :: rest else (k', v') :: pyInsert rest k v

/-- Python dict lookup `d[k]` / `k in d` (first entry with the key). -/
def pyLookup {α β : Type} [DecidableEq α] : List (α × β) → α → Option β
  | [], _ => none
  | (k', v) :: rest, k => if k' = k then some v else pyLookup rest k

/-- A parsed `{chnl: temp}` block, as an insertion-ordered dict. -/
abbrev Dict := List (ℤ × ℚ)

/-- Python `str.strip()` (ASCII whitespace). -/
def pyStrip (cs : List Char) : List Char :=
  ((cs.dropWhile Char.isWhitespace).reverse.dropWhile Char.isWhitespace).reverse

/-- The separator regex `^#####(\d+)#####$` of line 44: five hashes, a
nonempty digit group, five hashes, end of line.  Returns the digit group. -/
def matchSeparator : List Char → Option (List Char)
  | '#' :: '#' :: '#' :: '#' :: '#' :: rest =>
    let ds := rest.takeWhile Char.isDigit
    let tail := rest.drop ds.length
    if ds ≠ [] ∧ tail = ['#', '#', '#', '#', '#'] then some ds else none
  | _ => none

/-- Match a literal character sequence at the head of the input. -/
def dropLit : List Char → List Char → Option (List Char)
  | [], cs => some cs
  | _ :: _, [] => none
  | l :: ls, c :: cs => if c = l then dropLit ls cs else none

/-- Greedy nonempty character-class match (`X+` where the following
regex atom is disjoint from the class, as everywhere in line 55). -/
def takeWhile1 (p : Char → Bool) (cs : List Char) : Option (List Char × List Char) :=
  let t := cs.takeWhile p
  if t = [] then none else some (t, cs.drop t.length)

/-- Characters of the temperature group `[-\d.]+`. -/
def isFloatChar (c : Char) : Bool := c = '-' || c = '.' || c.isDigit

/-- The data-line regex of line 55,
`chnl\s+(\d+),\s+valid\s+(\d+),\s+temp\s+([-\d.]+)` under `re.match`
(anchored at the start only; trailing characters are allowed).
Returns the three captured groups. -/
def matchDataLine (cs : List Char) : Option (List Char × List Char × List Char) := do
  let cs ← dropLit ['c', 'h', 'n', 'l'] cs
  let (_, cs) ← takeWhile1 Char.isWhitespace cs
  let (d1, cs) ← takeWhile1 Char.isDigit cs
  let cs ← dropLit [','] cs
  let (_, cs) ← takeWhile1 Char.isWhitespace cs
  let cs ← dropLit ['v', 'a', 'l', 'i', 'd'] cs
  let (_, cs) ← takeWhile1 Char.isWhitespace cs
  let (d2, cs) ← takeWhile1 Char.isDigit cs
  let cs ← dropLit [','] cs
  let (_, cs) ← takeWhile1 Char.isWhitespace cs
  let cs ← dropLit ['t', 'e', 'm', 'p'] cs
  let (_, cs) ← takeWhile1 Char.isWhitespace cs
  let (t, _) ← takeWhile1 isFloatChar cs
  some (d1, d2, t)

/-- Python `int()` on a digit string. -/
def digitsToNat (ds : List Char) : ℕ :=
  ds.foldl (fun a c => 10 * a + (c.toNat - 48)) 0

/-- Python `float()` on an unsigned token over the alphabet `[-\d.]`:
either all digits, or digits, a single dot and digits, with at least one
digit overall.  Everything else raises `ValueError` (`none`). -/
def floatMag? (cs : List Char) : Option ℚ :=
  let ip := cs.takeWhile Char.isDigit
  let rest := cs.drop ip.length
  match rest with
  | [] => if ip = [] then none else some ((digitsToNat ip : ℚ))
  | '.' :: fp =>
    if fp.all Char.isDigit ∧ (ip ≠ [] ∨ fp ≠ []) then
      some ((digitsToNat ip : ℚ) + (digitsToNat fp : ℚ) / (10 : ℚ) ^ fp.length)
    else none
  | _ => none

/-- Python `float()` on a token matched by `[-\d.]+` (no exponents,
infinities or underscores are expressible in that alphabet). -/
def pyFloat? : List Char → Option ℚ
  | '-' :: rest => (floatMag? rest).map (fun q => -q)
  | cs => floatMag? cs

/-- Parser state of the loop in `parse_data_file` (lines 34–63). -/
structure ParseState where
  blocks : List Dict
  block_titles : List String
  current_block : Dict
  current_title : Option String
deriving DecidableEq

/-- `current_title if current_title else "Unknown"` (line 49/68):
Python truthiness on an optional string. -/
def titleOrUnknown : Option String → String
  | none => "Unknown"
  | some t => if t = "" then "Unknown" else t

/-- Lines 47–49 / 66–68: if the current block is non-empty, append it
together with its title. -/
def emitState (st : ParseState) : ParseState :=
  if st.current_block = [] then st
  else
    { st with
      blocks := st.blocks ++ [st.current_block]
      block_titles := st.block_titles ++ [titleOrUnknown st.current_title] }

/-- Lines 54–63: the data-line handling for one line, acting on the
current block only.  `float()` on a bad temperature token raises. -/
def dataLineStep (cur : Dict) (line : String) : Except String Dict :=
  match matchDataLine (pyStrip line.data) with
  | some (d1, d2, t) =>
    match pyFloat? t with
    | none => .error "could not convert string to float"
    | some temp =>
      .ok (if digitsToNat d2 = 1 then pyInsert cur ((digitsToNat d1 : ℤ)) temp else cur)
  | none => .ok cur

/-- One iteration of the `for line in f` loop (lines 40–63). -/
def parseLine (st : ParseState) (line : String) : Except String ParseState :=
  match matchSeparator (pyStrip line.data) with
  | some ds =>
    .ok { emitState st with current_block := [], current_title := some (String.mk ds) }
  | none => (dataLineStep st.current_block line).map (fun c => { st with current_block := c })

/-- `parse_data_file` (lines 21–70) on the list of lines of the file:
run the loop, then emit the final non-empty block.  The
`FileNotFoundError` of the missing-file path is outside this model. -/
def parse_data_file (lines : List String) : Except String (List Dict × List String) :=
  match lines.foldlM parseLine ⟨[], [], [], none⟩ with
  | .error e => .error e
  | .ok st => .ok ((emitState st).blocks, (emitState st).block_titles)

/-! ## `read_template_mapping` (lines 73–106)

A template cell is modelled as `Option ℤ`: `some z` when
`int(cell.value)` succeeds with value `z`, `none` when the cell is empty
or the conversion raises (the `try`/`except` of lines 97–104). -/

/-- Result of `read_template_mapping`: the `{(row, col): chnl}` dict and
the running maxima. -/
structure TemplateResult where
  mapping : List ((ℕ × ℕ) × ℤ)
  max_row : ℕ
  max_col : ℕ
deriving DecidableEq

/-- The inner loop of lines 95–104: scan the cells of one row, columns
numbered from `ci`. -/
def scanCells (ri : ℕ) : ℕ → List (Option ℤ) → TemplateResult → TemplateResult
  | _, [], st => st
  | ci, none :: rest, st => scanCells ri (ci + 1) rest st
  | ci, some v :: rest, st =>
    scanCells ri (ci + 1) rest
      { mapping := pyInsert st.mapping (ri, ci) v
        max_row := max st.max_row ri
        max_col := max st.max_col ci }

/-- The outer loop of line 94: scan the rows, numbered from `ri`. -/
def scanRows : ℕ → List (List (Option ℤ)) → TemplateResult → TemplateResult
  | _, [], st => st
  | ri, row :: rest, st => scanRows (ri + 1) rest (scanCells ri 1 row st)

/-- `read_template_mapping` on the template grid (1-based rows and
columns, as `enumerate(..., start=1)`). -/
def read_template_mapping (grid : List (List (Option ℤ))) : TemplateResult :=
  scanRows 1 grid ⟨[], 0, 0⟩

/-! ## `calculate_average_temps` (lines 109–131) -/

/-- `defaultdict(list)` append `chnl_temps[c].append(t)` (line 124). -/
def appendTemp : List (ℤ × List ℚ) → ℤ → ℚ → List (ℤ × List ℚ)
  | [], c, t => [(c, [t])]
  | (k, vs) :: rest, c, t =>
    if k = c then (k, vs ++ [t]) :: rest else (k, vs) :: appendTemp rest c t

/-- `calculate_average_temps`: collect each channel's temperatures over
all blocks, then map to `sum / len`. -/
def calculate_average_temps (blocks : List Dict) : List (ℤ × ℚ) :=
  let chnl_temps :=
    blocks.foldl (fun acc b => b.foldl (fun acc p => appendTemp acc p.1 p.2) acc) []
  chnl_temps.map (fun p => (p.1, p.2.sum / (p.2.length : ℚ)))

/-! ## `write_block_to_excel` (lines 152–180) and the composition loop
of `main` (lines 248–292)

The worksheet is modelled by the numeric cell writes `((row, col), v)`
and the title writes `(row, text)`; `write_title`'s font, alignment and
merge calls (lines 144–149) write no values and are not modelled. -/

/-- The grid output of `main`: title writes, numeric cell writes, and
the `all_temps` list collected for the color scale. -/
structure Output where
  titles : List (ℕ × String)
  cells : List ((ℕ × ℕ) × ℚ)
  all_temps : List ℚ
deriving DecidableEq

/-- `write_block_to_excel`: `max(row for row, _ in mapping.keys())`
raises `ValueError` on an empty mapping (line 168); otherwise write
`block_data[chnl]` at `(start_row + template_row - 1, template_col)` for
every mapped position whose channel is in the block (lines 171–177), and
return `start_row + max_template_row + 1` (line 180). -/
def write_block_to_excel (block_data : Dict) (mapping : List ((ℕ × ℕ) × ℤ))
    (start_row : ℕ) : Except String (List ((ℕ × ℕ) × ℚ) × ℕ) :=
  match mapping with
  | [] => .error "max() arg is an empty sequence"
  | m :: ms =>
    let max_template_row := (ms.map (fun e => e.1.1)).foldl max m.1.1
    let cells := (m :: ms).filterMap (fun e =>
      (pyLookup block_data e.2).map (fun v => ((start_row + e.1.1 - 1, e.1.2), v)))
    .ok (cells, start_row + max_template_row + 1)

/-- `f"Block {i} (#####{title}#####)"` (line 281). -/
def blockTitle (i : ℕ) (title : String) : String :=
  "Block " ++ toString i ++ " (#####" ++ title ++ "#####)"

/-- The block loop of `main` (lines 277–292): for block number `i` at
row cursor `current_row`, write the title, write the block starting at
`current_row + 1`, append all of the block's values to `all_temps`, and
continue at `block_end_row + 1`. -/
def composeBlocks (mapping : List ((ℕ × ℕ) × ℤ)) :
    ℕ → ℕ → Output → List (Dict × String) → Except String Output
  | _, _, out, [] => .ok out
  | i, current_row, out, (block, title) :: rest =>
    let out1 : Output :=
      { out with titles := out.titles ++ [(current_row, blockTitle i title)] }
    match write_block_to_excel block mapping (current_row + 1) with
    | .error e => .error e
    | .ok (cells, block_end_row) =>
      composeBlocks mapping (i + 1) (block_end_row + 1)
        { out1 with
          cells := out1.cells ++ cells
          all_temps := out1.all_temps ++ block.map Prod.snd } rest

/-- Steps 4.1–4.2 of `main` (lines 254–292): the average-map title at
row 1, the average values at rows `2 + r - 1` for each mapped position
whose channel has an average, then the block sections starting at
`2 + max_template_row + 1`. -/
def composeGrid (mapping : List ((ℕ × ℕ) × ℤ)) (max_template_row : ℕ)
    (avg_temps : List (ℤ × ℚ)) (blocks_with_titles : List (Dict × String)) :
    Except String Output :=
  let avgWrites := mapping.filterMap (fun e =>
    (pyLookup avg_temps e.2).map (fun v => ((2 + e.1.1 - 1, e.1.2), v)))
  composeBlocks mapping 1 (2 + max_template_row + 1)
    ⟨[(1, "Average Temperature Map")], avgWrites, avgWrites.map Prod.snd⟩
    blocks_with_titles

/-! ## Color scale (lines 183–217 and 294–300) -/

/-- The three-anchor color-scale rule built by `apply_color_scale`. -/
structure ColorScaleSpec where
  start_value : ℚ
  mid_value : ℚ
  end_value : ℚ
  start_color : String
  mid_color : String
  end_color : String
deriving DecidableEq

/-- Step 5 of `main` (lines 294–300) together with `apply_color_scale`
(lines 203–213): when `all_temps` is empty no rule is built; otherwise
the rule uses `min(all_temps)`, `(min + max) / 2` and `max(all_temps)`
with the fixed green/yellow/red anchors. -/
def planColorScale (all_temps : List ℚ) : Option ColorScaleSpec :=
  match all_temps with
  | [] => none
  | t :: ts =>
    let min_temp := ts.foldl min t
    let max_temp := ts.foldl max t
    some ⟨min_temp, (min_temp + max_temp) / 2, max_temp, "00FF00", "FFFF00", "FF0000"⟩

/-! ## Proof machinery for the parser

`parseAux` is a recursive restatement of the parsing loop: it returns
the blocks and titles still to be emitted, given the open block and
pending title.  `parse_to_aux` proves it equal to the fold of
`parseLine` plus the final emission. -/

/-- Is the (stripped) line a block separator? -/
def isSepLine (l : String) : Bool := (matchSeparator (pyStrip l.data)).isSome

/-- Recursive form of the parsing loop: given the currently open block
and pending title, the blocks and titles emitted by the remaining
lines. -/
def parseAux (cur : Dict) (t : Option String) :
    List String → Except String (List Dict × List String)
  | [] => .ok (if cur = [] then ([], []) else ([cur], [titleOrUnknown t]))
  | l :: ls =>
    match matchSeparator (pyStrip l.data) with
    | some ds =>
      (parseAux [] (some (String.mk ds)) ls).map (fun p =>
        if cur = [] then p else (cur :: p.1, titleOrUnknown t :: p.2))
    | none =>
      match dataLineStep cur l with
      | .error e => .error e
      | .ok cur1 => parseAux cur1 t ls

/-- The regions of the input: maximal runs of non-separator lines
(separator lines themselves belong to no region).  This formalises the
claim language "delimiter-delimited region". -/
def regionsOf : List String → List (List String)
  | [] => [[]]
  | l :: ls =>
    if isSepLine l then [] :: regionsOf ls
    else
      match regionsOf ls with
      | [] => [[l]]
      | r :: rs => (l :: r) :: rs

/-- Per-region parsing: fold the data-line step over each region (the
first one starting from `cur`), and emit each region's dict exactly when
it is non-empty. -/
def regionBlocks (cur : Dict) : List (List String) → Except String (List Dict)
  | [] => .ok []
  | r :: rs =>
    match r.foldlM dataLineStep cur with
    | .error e => .error e
    | .ok d =>
      match regionBlocks [] rs with
      | .error e => .error e
      | .ok bs => .ok (if d = [] then bs else d :: bs)

/-- The integer cells of one row, with columns numbered from `ci`. -/
def rowEntries (ri : ℕ) : ℕ → List (Option ℤ) → List ((ℕ × ℕ) × ℤ)
  | _, [] => []
  | ci, none :: rest => rowEntries ri (ci + 1) rest
  | ci, some v :: rest => ((ri, ci), v) :: rowEntries ri (ci + 1) rest

/-- The integer cells of the grid, with rows numbered from `ri`. -/
def gridEntries : ℕ → List (List (Option ℤ)) → List ((ℕ × ℕ) × ℤ)
  | _, [] => []
  | ri, row :: rest => rowEntries ri 1 row ++ gridEntries (ri + 1) rest

/-- All temperatures recorded for channel `c` in one block (in entry
order). -/
def cvals (c : ℤ) (b : Dict) : List ℚ :=
  b.filterMap (fun p => if p.1 = c then some p.2 else none)

/-- All temperatures recorded for channel `c` across the blocks. -/
def collectVals (c : ℤ) : List Dict → List ℚ
  | [] => []
  | b :: rest => cvals c b ++ collectVals c rest

/-- The concatenation of all block values (`block.values()`), in block
order — what lines 288–289 of `main` append to `all_temps`. -/
def allBlockVals : List (Dict × String) → List ℚ
  | [] => []
  | (b, _) :: rest => b.map Prod.snd ++ allBlockVals rest

/-! ## Lemmas -/

theorem except_pure_def {ε α : Type} (a : α) : (pure a : Except ε α) = Except.ok a := rfl

theorem except_bind_ok {ε α β : Type} (a : α) (f : α → Except ε β) :
    (Except.ok a >>= f : Except ε β) = f a := rfl

theorem except_bind_error {ε α β : Type} (e : ε) (f : α → Except ε β) :
    (Except.error e >>= f : Except ε β) = Except.error e := rfl

theorem parseLine_sep (st : ParseState) (l : String) (ds : List Char)
    (h : matchSeparator (pyStrip l.data) = some ds) :
    parseLine st l
      = .ok { emitState st with current_block := [], current_title := some (String.mk ds) } := by
  unfold parseLine
  rw [h]

theorem parseLine_data (st : ParseState) (l : String)
    (h : matchSeparator (pyStrip l.data) = none) :
    parseLine st l
      = (dataLineStep st.current_block l).map (fun c => { st with current_block := c }) := by
  unfold parseLine
  rw [h]

theorem parse_to_aux (ls : List String) (st : ParseState) :
    (match ls.foldlM parseLine st with
     | .error e => .error e
     | .ok st1 => .ok ((emitState st1).blocks, (emitState st1).block_titles))
    = (match parseAux st.current_block st.current_title ls with
       | .error e => (.error e : Except String (List Dict × List String))
       | .ok p => .ok (st.blocks ++ p.1, st.block_titles ++ p.2)) := by
  induction ls generalizing st with
  | nil =>
    simp only [List.foldlM, except_pure_def, parseAux]
    by_cases h : st.current_block = []
    · simp [emitState, h]
    · simp [emitState, h]
  | cons l ls ih =>
    simp only [List.foldlM]
    rw [parseAux]
    cases hsep : matchSeparator (pyStrip l.data) with
    | some ds =>
      rw [parseLine_sep st l ds hsep, except_bind_ok, ih]
      cases hp : parseAux [] (some (String.mk ds)) ls with
      | error e => simp [Except.map, hp]
      | ok p =>
        simp only [Except.map]
        by_cases h : st.current_block = []
        · simp [emitState, h, hp]
        · simp [emitState, h, hp, List.append_assoc]
    | none =>
      rw [parseLine_data st l hsep]
      cases hd : dataLineStep st.current_block l with
      | error e => simp [Except.map, except_bind_error]
      | ok cur1 =>
        simp only [Except.map, except_bind_ok]
        exact ih { st with current_block := cur1 }

/-- `parse_data_file` is `parseAux` started from the empty state. -/
theorem parse_eq_parseAux (ls : List String) :
    parse_data_file ls = parseAux [] none ls := by
  have h := parse_to_aux ls ⟨[], [], [], none⟩
  unfold parse_data_file
  rw [h]
  cases parseAux [] none ls with
  | error e => rfl
  | ok p => simp

theorem regionsOf_ne_nil (ls : List String) : regionsOf ls ≠ [] := by
  cases ls with
  | nil => simp [regionsOf]
  | cons l ls =>
    rw [regionsOf]
    by_cases h : isSepLine l
    · simp [h]
    · simp only [h, if_false]
      cases regionsOf ls <;> simp

theorem parseAux_fst_eq_regionBlocks (ls : List String) (cur : Dict) (t : Option String) :
    (parseAux cur t ls).map Prod.fst = regionBlocks cur (regionsOf ls) := by
  induction ls generalizing cur t with
  | nil =>
    simp only [parseAux, regionsOf, regionBlocks, List.foldlM, except_pure_def]
    by_cases h : cur = [] <;> simp [h, Except.map]
  | cons l ls ih =>
    rw [parseAux, regionsOf]
    cases hsep : matchSeparator (pyStrip l.data) with
    | some ds =>
      have hs : isSepLine l = true := by simp [isSepLine, hsep]
      rw [if_pos hs]
      rw [regionBlocks]
      simp only [List.foldlM, except_pure_def]
      rw [← ih [] (some (String.mk ds))]
      cases hp : parseAux [] (some (String.mk ds)) ls with
      | error e => simp [Except.map]
      | ok p => by_cases h : cur = [] <;> simp [Except.map, h]
    | none =>
      have hs : isSepLine l = false := by simp [isSepLine, hsep]
      rw [if_neg (by simp [hs])]
      have hne := regionsOf_ne_nil ls
      cases hr : regionsOf ls with
      | nil => exact absurd hr hne
      | cons r rs =>
        rw [regionBlocks]
        simp only [List.foldlM]
        cases hd : dataLineStep cur l with
        | error e => simp [except_bind_error, Except.map]
        | ok cur1 =>
          rw [except_bind_ok]
          have := ih cur1 t
          rw [hr, regionBlocks] at this
          rw [this]

/-- Every block kept by `regionBlocks` is non-empty. -/
theorem regionBlocks_mem_ne_nil (regs : List (List String)) (cur : Dict)
    (bs : List Dict) (h : regionBlocks cur regs = .ok bs) :
    ∀ b ∈ bs, b ≠ [] := by
  induction regs generalizing cur bs with
  | nil =>
    rw [regionBlocks] at h
    cases h
    simp
  | cons r rs ih =>
    rw [regionBlocks] at h
    cases hf : r.foldlM dataLineStep cur with
    | error e => rw [hf] at h; cases h
    | ok d =>
      rw [hf] at h
      cases hrest : regionBlocks [] rs with
      | error e => rw [hrest] at h; cases h
      | ok bs1 =>
        rw [hrest] at h
        have h2 : Except.ok (if d = [] then bs1 else d :: bs1) = Except.ok bs := h
        by_cases hd : d = []
        · rw [if_pos hd] at h2
          cases h2
          exact ih [] _ hrest
        · rw [if_neg hd] at h2
          cases h2
          intro b hb
          cases hb with
          | head => exact hd
          | tail _ hb => exact ih [] _ hrest b hb

/-! ## No-separator runs (for the "Unknown" title claims) -/

theorem isSepLine_eq_false (l : String) (h : isSepLine l = false) :
    matchSeparator (pyStrip l.data) = none := by
  unfold isSepLine at h
  cases hm : matchSeparator (pyStrip l.data) with
  | none => rfl
  | some ds => rw [hm] at h; simp at h

/-- Over lines with no separator, `parseAux` is the data fold of the
lines, emitting at most the final block, titled from the pending
title. -/
theorem parseAux_no_sep (ls : List String) (cur : Dict) (t : Option String)
    (h : ∀ l ∈ ls, isSepLine l = false) :
    parseAux cur t ls
      = match ls.foldlM dataLineStep cur with
        | .error e => .error e
        | .ok d => .ok (if d = [] then ([], []) else ([d], [titleOrUnknown t])) := by
  induction ls generalizing cur with
  | nil => simp only [parseAux, List.foldlM, except_pure_def]
  | cons l ls ih =>
    have hl : isSepLine l = false := h l (by simp)
    have hsep : matchSeparator (pyStrip l.data) = none := isSepLine_eq_false l hl
    rw [parseAux]
    rw [hsep]
    simp only [List.foldlM]
    cases hd : dataLineStep cur l with
    | error e => simp [except_bind_error]
    | ok cur1 =>
      rw [except_bind_ok]
      exact ih cur1 (fun x hx => h x (by simp [hx]))

/-- The blocks and titles of `parseAux` always have equal length. -/
theorem parseAux_length_eq (ls : List String) (cur : Dict) (t : Option String)
    (bs : List Dict) (ts : List String) (h : parseAux cur t ls = .ok (bs, ts)) :
    bs.length = ts.length := by
  induction ls generalizing cur t bs ts with
  | nil =>
    rw [parseAux] at h
    by_cases hc : cur = []
    · rw [if_pos hc] at h
      cases h
      rfl
    · rw [if_neg hc] at h
      cases h
      rfl
  | cons l ls ih =>
    rw [parseAux] at h
    cases hsep : matchSeparator (pyStrip l.data) with
    | some ds =>
      rw [hsep] at h
      have h2 : (parseAux [] (some (String.mk ds)) ls).map
          (fun p => if cur = [] then p else (cur :: p.1, titleOrUnknown t :: p.2))
          = Except.ok (bs, ts) := h
      cases hp : parseAux [] (some (String.mk ds)) ls with
      | error e => rw [hp] at h2; simp [Except.map] at h2
      | ok p =>
        rw [hp] at h2
        simp only [Except.map] at h2
        by_cases hc : cur = []
        · rw [if_pos hc] at h2
          cases h2
          exact ih [] (some (String.mk ds)) _ _ hp
        · rw [if_neg hc] at h2
          cases h2
          simpa using ih [] (some (String.mk ds)) p.1 p.2 (by rw [hp])
    | none =>
      rw [hsep] at h
      have h2 : (match dataLineStep cur l with
                 | .error e => (.error e : Except String (List Dict × List String))
                 | .ok cur1 => parseAux cur1 t ls) = Except.ok (bs, ts) := h
      cases hd : dataLineStep cur l with
      | error e => rw [hd] at h2; simp at h2
      | ok cur1 =>
        rw [hd] at h2
        exact ih cur1 t bs ts h2

/-! ## Template-scan machinery (for the duplicate-channel claim)

The scan is proved to produce exactly the direct enumeration
`gridEntries`, because the position keys are scanned in strictly
increasing lexicographic order and so `pyInsert` never updates an
existing key. -/

theorem pyInsert_fresh {α β : Type} [DecidableEq α] (d : List (α × β)) (k : α) (v : β)
    (h : ∀ p ∈ d, p.1 ≠ k) : pyInsert d k v = d ++ [(k, v)] := by
  induction d with
  | nil => rfl
  | cons p rest ih =>
    rw [pyInsert]
    rw [if_neg (h p (by simp))]
    rw [ih (fun q hq => h q (by simp [hq]))]
    simp

theorem rowEntries_row (ri ci : ℕ) (cells : List (Option ℤ)) :
    ∀ p ∈ rowEntries ri ci cells, p.1.1 = ri := by
  induction cells generalizing ci with
  | nil => simp [rowEntries]
  | cons c rest ih =>
    cases c with
    | none => simpa [rowEntries] using ih (ci + 1)
    | some v =>
      intro p hp
      rw [rowEntries] at hp
      cases hp with
      | head => rfl
      | tail _ hp => exact ih (ci + 1) p hp

theorem scanCells_mapping (cells : List (Option ℤ)) (ri ci : ℕ) (st : TemplateResult)
    (h : ∀ p ∈ st.mapping, p.1.1 < ri ∨ (p.1.1 = ri ∧ p.1.2 < ci)) :
    (scanCells ri ci cells st).mapping = st.mapping ++ rowEntries ri ci cells := by
  induction cells generalizing ci st with
  | nil => simp [scanCells, rowEntries]
  | cons c rest ih =>
    cases c with
    | none =>
      rw [scanCells, rowEntries]
      exact ih (ci + 1) st (fun p hp => by
        rcases h p hp with h1 | h2
        · exact Or.inl h1
        · exact Or.inr ⟨h2.1, Nat.lt_succ_of_lt h2.2⟩)
    | some v =>
      rw [scanCells, rowEntries]
      have hfresh : ∀ p ∈ st.mapping, p.1 ≠ (ri, ci) := by
        intro p hp hk
        rcases h p hp with h1 | h2
        · rw [hk] at h1; exact lt_irrefl ri h1
        · rw [hk] at h2; exact lt_irrefl ci h2.2
      have hins := pyInsert_fresh st.mapping (ri, ci) v hfresh
      rw [ih (ci + 1) _ (by
        intro p hp
        simp only [hins, List.mem_append, List.mem_singleton] at hp
        rcases hp with hp | hp
        · rcases h p hp with h1 | h2
          · exact Or.inl h1
          · exact Or.inr ⟨h2.1, Nat.lt_succ_of_lt h2.2⟩
        · rw [hp]; exact Or.inr ⟨rfl, Nat.lt_succ_self ci⟩)]
      simp [hins]

theorem scanRows_mapping (rows : List (List (Option ℤ))) (ri : ℕ) (st : TemplateResult)
    (h : ∀ p ∈ st.mapping, p.1.1 < ri) :
    (scanRows ri rows st).mapping = st.mapping ++ gridEntries ri rows := by
  induction rows generalizing ri st with
  | nil => simp [scanRows, gridEntries]
  | cons row rest ih =>
    rw [scanRows, gridEntries]
    have h1 := scanCells_mapping row ri 1 st (fun p hp => Or.inl (h p hp))
    rw [ih (ri + 1) _ (by
      intro p hp
      rw [h1] at hp
      rcases List.mem_append.mp hp with hp | hp
      · exact Nat.lt_succ_of_lt (h p hp)
      · rw [rowEntries_row ri 1 row p hp]; exact Nat.lt_succ_self ri)]
    rw [h1, List.append_assoc]

/-! ## Aggregator machinery -/

theorem cvals_cons_eq (c : ℤ) (p : ℤ × ℚ) (rest : Dict) (hk : p.1 = c) :
    cvals c (p :: rest) = p.2 :: cvals c rest := by
  simp [cvals, List.filterMap_cons, hk]

theorem cvals_cons_ne (c : ℤ) (p : ℤ × ℚ) (rest : Dict) (hk : ¬p.1 = c) :
    cvals c (p :: rest) = cvals c rest := by
  simp [cvals, List.filterMap_cons, hk]

theorem appendTemp_lookup_same (acc : List (ℤ × List ℚ)) (c : ℤ) (t : ℚ) :
    pyLookup (appendTemp acc c t) c = some ((pyLookup acc c).getD [] ++ [t]) := by
  induction acc with
  | nil => simp [appendTemp, pyLookup]
  | cons p rest ih =>
    rw [appendTemp]
    by_cases hk : p.1 = c
    · rw [show (p : ℤ × List ℚ) = (p.1, p.2) from rfl, hk]
      simp [pyLookup]
    · rw [show (p : ℤ × List ℚ) = (p.1, p.2) from rfl]
      rw [if_neg hk]
      simp only [pyLookup, if_neg hk]
      exact ih

theorem pyLookup_cons {α β : Type} [DecidableEq α] (p : α × β) (rest : List (α × β)) (k : α) :
    pyLookup (p :: rest) k = if p.1 = k then some p.2 else pyLookup rest k := by
  cases p
  rfl

theorem appendTemp_lookup_ne (acc : List (ℤ × List ℚ)) (c c1 : ℤ) (t : ℚ) (h : c1 ≠ c) :
    pyLookup (appendTemp acc c t) c1 = pyLookup acc c1 := by
  induction acc with
  | nil => simp [appendTemp, pyLookup, Ne.symm h]
  | cons p rest ih =>
    obtain ⟨k, vs⟩ := p
    rw [appendTemp]
    by_cases hk : k = c
    · rw [if_pos hk, pyLookup_cons, pyLookup_cons]
      simp [hk, Ne.symm h]
    · rw [if_neg hk, pyLookup_cons, pyLookup_cons]
      by_cases hc1 : k = c1
      · simp [hc1]
      · simp [hc1, ih]

/-- Folding one block's entries into the `defaultdict`. -/
theorem block_fold_lookup (b : Dict) (acc : List (ℤ × List ℚ)) (c : ℤ) :
    pyLookup (b.foldl (fun a p => appendTemp a p.1 p.2) acc) c
      = match pyLookup acc c with
        | some u => some (u ++ cvals c b)
        | none => if cvals c b = [] then none else some (cvals c b) := by
  induction b generalizing acc with
  | nil =>
    simp only [List.foldl_nil, cvals, List.filterMap_nil]
    cases pyLookup acc c <;> simp
  | cons p rest ih =>
    rw [List.foldl_cons]
    rw [ih (appendTemp acc p.1 p.2)]
    by_cases hk : p.1 = c
    · rw [hk, appendTemp_lookup_same]
      rw [cvals_cons_eq c p rest hk]
      cases hacc : pyLookup acc c <;> simp
    · rw [appendTemp_lookup_ne acc p.1 c p.2 (fun hc => hk hc.symm)]
      rw [cvals_cons_ne c p rest hk]

/-- Folding all blocks into the `defaultdict`. -/
theorem blocks_fold_lookup (blocks : List Dict) (acc : List (ℤ × List ℚ)) (c : ℤ) :
    pyLookup (blocks.foldl (fun a b => b.foldl (fun a p => appendTemp a p.1 p.2) a) acc) c
      = match pyLookup acc c with
        | some u => some (u ++ collectVals c blocks)
        | none => if collectVals c blocks = [] then none
                  else some (collectVals c blocks) := by
  induction blocks generalizing acc with
  | nil =>
    simp only [List.foldl_nil, collectVals]
    cases pyLookup acc c <;> simp
  | cons b rest ih =>
    rw [List.foldl_cons]
    rw [ih]
    rw [block_fold_lookup b acc c]
    rw [collectVals]
    cases hacc : pyLookup acc c with
    | some u =>
      simp [List.append_assoc]
    | none =>
      by_cases hb : cvals c b = []
      · simp [hb]
      · by_cases hr : collectVals c rest = [] <;> simp [hb, hr]

theorem map_avg_lookup (l : List (ℤ × List ℚ)) (c : ℤ) :
    pyLookup (l.map (fun p => (p.1, p.2.sum / (p.2.length : ℚ)))) c
      = (pyLookup l c).map (fun vs => vs.sum / (vs.length : ℚ)) := by
  induction l with
  | nil => simp [pyLookup]
  | cons p rest ih =>
    simp only [List.map_cons, pyLookup]
    by_cases hk : p.1 = c <;> simp [hk, ih]

theorem cvals_nil_of_not_mem (c : ℤ) (b : Dict) (h : c ∉ b.map Prod.fst) :
    cvals c b = [] := by
  induction b with
  | nil => rfl
  | cons p rest ih =>
    simp only [List.map_cons, List.mem_cons] at h
    push_neg at h
    rw [cvals_cons_ne c p rest (fun hc => h.1 hc.symm)]
    exact ih h.2

/-- For a genuine dict (no duplicate keys) the per-channel values of a
block are exactly its lookup. -/
theorem cvals_eq_lookup (c : ℤ) (b : Dict) (hb : (b.map Prod.fst).Nodup) :
    cvals c b = match pyLookup b c with | some t => [t] | none => [] := by
  induction b with
  | nil => rfl
  | cons p rest ih =>
    simp only [List.map_cons, List.nodup_cons] at hb
    rw [pyLookup_cons]
    by_cases hk : p.1 = c
    · have hnm : c ∉ rest.map Prod.fst := by rw [← hk]; exact hb.1
      rw [cvals_cons_eq c p rest hk, cvals_nil_of_not_mem c rest hnm, if_pos hk]
    · rw [cvals_cons_ne c p rest hk, if_neg hk]
      exact ih hb.2

theorem collectVals_eq_filterMap (c : ℤ) (blocks : List Dict)
    (h : ∀ b ∈ blocks, (b.map Prod.fst).Nodup) :
    collectVals c blocks = blocks.filterMap (fun b => pyLookup b c) := by
  induction blocks with
  | nil => rfl
  | cons b rest ih =>
    rw [collectVals, List.filterMap_cons]
    rw [cvals_eq_lookup c b (h b (by simp))]
    rw [ih (fun x hx => h x (by simp [hx]))]
    cases pyLookup b c <;> simp

/-! ## Composition machinery -/

theorem composeBlocks_all_temps (bts : List (Dict × String))
    (mapping : List ((ℕ × ℕ) × ℤ)) (i cur : ℕ) (out out1 : Output)
    (h : composeBlocks mapping i cur out bts = .ok out1) :
    out1.all_temps = out.all_temps ++ allBlockVals bts := by
  induction bts generalizing i cur out with
  | nil =>
    rw [composeBlocks] at h
    cases h
    simp [allBlockVals]
  | cons bt rest ih =>
    obtain ⟨b, title⟩ := bt
    rw [composeBlocks] at h
    cases mapping with
    | nil =>
      rw [write_block_to_excel] at h
      cases h
    | cons m ms =>
      rw [write_block_to_excel] at h
      have h2 := ih _ _ _ h
      rw [h2]
      simp [allBlockVals, List.append_assoc]

theorem map_snd_filterMap {α : Type} (l : List α) (f : α → Option ℚ) (g : α → ℕ × ℕ) :
    (l.filterMap (fun e => (f e).map (fun v => (g e, v)))).map Prod.snd
      = l.filterMap f := by
  induction l with
  | nil => rfl
  | cons a rest ih =>
    rw [List.filterMap_cons, List.filterMap_cons]
    cases f a <;> simp [ih]

/-! ## Minimum/maximum of a non-empty list via `List.foldl` (Python's
`min(list)` / `max(list)`) -/

theorem foldl_min_le_init (ts : List ℚ) (t : ℚ) : ts.foldl min t ≤ t := by
  induction ts generalizing t with
  | nil => exact le_refl t
  | cons x xs ih => exact le_trans (ih (min t x)) (min_le_left t x)

theorem foldl_min_mem (ts : List ℚ) (t : ℚ) : ts.foldl min t ∈ t :: ts := by
  induction ts generalizing t with
  | nil => simp
  | cons x xs ih =>
    rw [List.foldl_cons]
    have h := ih (min t x)
    simp only [List.mem_cons] at h ⊢
    rcases h with h | h
    · rcases min_choice t x with hc | hc
      · left; rw [h, hc]
      · right; left; rw [h, hc]
    · right; right; exact h

theorem foldl_min_le (ts : List ℚ) (t x : ℚ) (hx : x ∈ t :: ts) : ts.foldl min t ≤ x := by
  induction ts generalizing t with
  | nil =>
    simp only [List.mem_singleton] at hx
    rw [hx]
    exact le_refl t
  | cons y ys ih =>
    rw [List.foldl_cons]
    simp only [List.mem_cons] at hx
    rcases hx with hx | hx | hx
    · exact le_trans (foldl_min_le_init ys (min t y)) (by rw [hx]; exact min_le_left t y)
    · exact le_trans (foldl_min_le_init ys (min t y)) (by rw [hx]; exact min_le_right t y)
    · exact ih (min t y) (by simp [hx])

theorem init_le_foldl_max (ts : List ℚ) (t : ℚ) : t ≤ ts.foldl max t := by
  induction ts generalizing t with
  | nil => exact le_refl t
  | cons x xs ih => exact le_trans (le_max_left t x) (ih (max t x))

theorem foldl_max_mem (ts : List ℚ) (t : ℚ) : ts.foldl max t ∈ t :: ts := by
  induction ts generalizing t with
  | nil => simp
  | cons x xs ih =>
    rw [List.foldl_cons]
    have h := ih (max t x)
    simp only [List.mem_cons] at h ⊢
    rcases h with h | h
    · rcases max_choice t x with hc | hc
      · left; rw [h, hc]
      · right; left; rw [h, hc]
    · right; right; exact h

theorem le_foldl_max (ts : List ℚ) (t x : ℚ) (hx : x ∈ t :: ts) : x ≤ ts.foldl max t := by
  induction ts generalizing t with
  | nil =>
    simp only [List.mem_singleton] at hx
    rw [hx]
    exact le_refl t
  | cons y ys ih =>
    rw [List.foldl_cons]
    simp only [List.mem_cons] at hx
    rcases hx with hx | hx | hx
    · exact le_trans (by rw [hx]; exact le_max_left t y) (init_le_foldl_max ys (max t y))
    · exact le_trans (by rw [hx]; exact le_max_right t y) (init_le_foldl_max ys (max t y))
    · exact ih (max t y) (by simp [hx])

/-! ## Remaining parser helpers -/

theorem parseLine_unmatched (st : ParseState) (line : String)
    (h1 : matchSeparator (pyStrip line.data) = none)
    (h2 : matchDataLine (pyStrip line.data) = none) :
    parseLine st line = .ok st := by
  rw [parseLine_data st line h1]
  unfold dataLineStep
  rw [h2]
  rfl

theorem foldlM_parseLine_id (ls : List String) (st : ParseState)
    (h : ∀ l ∈ ls, matchSeparator (pyStrip l.data) = none
        ∧ matchDataLine (pyStrip l.data) = none) :
    ls.foldlM parseLine st = .ok st := by
  induction ls with
  | nil => rfl
  | cons l ls ih =>
    simp only [List.foldlM]
    rw [parseLine_unmatched st l (h l (by simp)).1 (h l (by simp)).2, except_bind_ok]
    exact ih (fun x hx => h x (by simp [hx]))

theorem parseAux_append_no_sep (pre ls2 : List String) (cur : Dict) (t : Option String)
    (h : ∀ l ∈ pre, isSepLine l = false) :
    parseAux cur t (pre ++ ls2)
      = match pre.foldlM dataLineStep cur with
        | .error e => .error e
        | .ok c => parseAux c t ls2 := by
  induction pre generalizing cur with
  | nil => simp only [List.nil_append, List.foldlM, except_pure_def]
  | cons l pre ih =>
    have hsep := isSepLine_eq_false l (h l (by simp))
    rw [List.cons_append, parseAux, hsep]
    simp only [List.foldlM]
    cases hd : dataLineStep cur l with
    | error e => simp [except_bind_error]
    | ok cur1 =>
      rw [except_bind_ok]
      exact ih cur1 (fun x hx => h x (by simp [hx]))

/-! ## Claim theorems -/

/-- Claim C1 (code bug, concrete evaluation): on the spec's own
layout case — template row `[1, 2]` (`max_row = 1`) and two blocks — the
composed grid's title rows are 1, 4 and 8.  Block section 2's title row
is block section 1's plus `max_row + 3` (two blank separator rows), not
plus `max_row + 2` with one blank row: `main` adds 1 to
`write_block_to_excel`'s return value although that value is already
documented as the next block's start row (end row + 2). -/
theorem composeGrid_title_rows_concrete :
    (composeGrid (read_template_mapping [[some 1, some 2]]).mapping
        (read_template_mapping [[some 1, some 2]]).max_row
        [(1, 20), (2, 20)]
        [([(1, 10), (2, 20)], "1"), ([(1, 30)], "2")]).map Output.titles
      = .ok [(1, "Average Temperature Map"),
             (4, "Block 1 (#####1#####)"),
             (8, "Block 2 (#####2#####)")] := by decide

/-- Claim C2 (counterexample): the line `chnl 1, valid 1, temp .`
matches the data-line regex with temperature token `.`, and
`float(".")` raises `ValueError`, so `parse_data_file` does not return
normally on every input. -/
theorem parse_raises_on_bad_float_token :
    parse_data_file ["chnl 1, valid 1, temp ."]
      = .error "could not convert string to float" := by decide

/-- Claim C2 (amended): every line matching neither the separator
pattern nor the data-line pattern is silently skipped — the parser state
is unchanged and no error is raised — and an input of only such lines
parses to no blocks; the original claim fails only on lines that match
the data-line pattern with an unparseable float token. -/
theorem parse_skips_unmatched_lines :
    (∀ (st : ParseState) (line : String),
        matchSeparator (pyStrip line.data) = none →
        matchDataLine (pyStrip line.data) = none →
        parseLine st line = .ok st)
    ∧ (∀ lines : List String,
        (∀ l ∈ lines, matchSeparator (pyStrip l.data) = none
            ∧ matchDataLine (pyStrip l.data) = none) →
        parse_data_file lines = .ok ([], [])) := by
  constructor
  · exact parseLine_unmatched
  · intro lines h
    unfold parse_data_file
    rw [foldlM_parseLine_id lines ⟨[], [], [], none⟩ h]
    rfl

/-- Claim C2 (witness): concrete instances of both parts. -/
theorem parse_skips_unmatched_lines_witness :
    parseLine ⟨[], [], [], none⟩ "a comment" = .ok ⟨[], [], [], none⟩
    ∧ parse_data_file ["", "a comment", "####1####"] = .ok ([], []) :=
  ⟨parse_skips_unmatched_lines.1 ⟨[], [], [], none⟩ "a comment" (by decide) (by decide),
   parse_skips_unmatched_lines.2 ["", "a comment", "####1####"] (by decide)⟩

/-- Claim C3 (counterexample): with an empty template mapping and one
parsed block, the composition raises `ValueError` (`max()` over the
empty mapping in `write_block_to_excel`) instead of producing a
title-only section. -/
theorem composeGrid_error_on_empty_mapping_concrete :
    composeGrid [] 0 [] [([(1, 5)], "1")]
      = .error "max() arg is an empty sequence" := by decide

/-- Claim C3 (amended): for every template with no integer cell
(mapping empty, `max_row = 0`) and every log yielding at least one
block, the pipeline raises `ValueError` in `write_block_to_excel`
(`max()` of an empty sequence); composition does not proceed past the
first block section's title. -/
theorem composeGrid_error_on_empty_mapping (avg : List (ℤ × ℚ))
    (bts : List (Dict × String)) (h : bts ≠ []) :
    composeGrid [] 0 avg bts = .error "max() arg is an empty sequence" := by
  rcases bts with _ | ⟨⟨b, title⟩, rest⟩
  · exact absurd rfl h
  · rfl

/-- Claim C3 (witness): concrete instance. -/
theorem composeGrid_error_on_empty_mapping_witness :
    composeGrid [] 0 [(3, 4)] [([(1, 7)], "9")]
      = .error "max() arg is an empty sequence" :=
  composeGrid_error_on_empty_mapping [(3, 4)] [([(1, 7)], "9")] (by decide)

/-- Claim C4 (counterexample): with mapping `{(1,1): 1}` and a block
holding only channel 2, no numeric cell is ever written (`cells = []`)
yet the block's value 99 enters `all_temps` and hence the color-scale
bounds (min = max = 99): a block temperature for a channel with no
mapped position does contribute to the color-scale bounds. -/
theorem unmapped_channel_in_color_scale :
    composeGrid [((1, 1), 1)] 1 [(2, 99)] [([(2, 99)], "7")]
      = .ok ⟨[(1, "Average Temperature Map"), (4, "Block 1 (#####7#####)")], [], [99]⟩
    ∧ planColorScale [99] = some ⟨99, 99, 99, "00FF00", "FFFF00", "FF0000"⟩ := by
  constructor
  · decide
  · simp [planColorScale]

/-- Claim C4 (amended): the color-scale value list is exactly the
average values written at mapped positions followed by all block
values — every value of every block, including channels with no mapped
position (lines 288–289 append `block.values()` wholesale, written or
not). -/
theorem composeGrid_all_temps_characterization (mapping : List ((ℕ × ℕ) × ℤ))
    (mtr : ℕ) (avg : List (ℤ × ℚ)) (bts : List (Dict × String)) (out : Output)
    (h : composeGrid mapping mtr avg bts = .ok out) :
    out.all_temps = mapping.filterMap (fun e => pyLookup avg e.2) ++ allBlockVals bts := by
  simp only [composeGrid] at h
  have h2 := composeBlocks_all_temps bts mapping 1 (2 + mtr + 1) _ out h
  rw [h2]
  simp only
  rw [map_snd_filterMap mapping (fun e => pyLookup avg e.2) (fun e => (2 + e.1.1 - 1, e.1.2))]

/-- Claim C4 (witness): concrete instance of the characterization. -/
theorem composeGrid_all_temps_characterization_witness :
    (Output.all_temps ⟨[(1, "Average Temperature Map"), (4, "Block 1 (#####4#####)")],
        [((5, 1), 3)], [3, 50]⟩)
      = [((1, 1), (1 : ℤ))].filterMap (fun e => pyLookup [((2 : ℤ), (50 : ℚ))] e.2)
        ++ allBlockVals [([(1, 3), (2, 50)], "4")] :=
  composeGrid_all_temps_characterization [((1, 1), 1)] 1 [(2, 50)]
    [([(1, 3), (2, 50)], "4")] _ (by decide)

/-- Claim C5 (counterexample): in a template whose two populated cells
both hold channel 5, both cells keep their mapping entries — the
earlier position `(1,1)` still maps to channel 5, so the channel is not
associated with only the later-scanned position. -/
theorem duplicate_channel_keeps_both_positions :
    (read_template_mapping [[some 5, some 5]]).mapping = [((1, 1), 5), ((1, 2), 5)]
    ∧ pyLookup (read_template_mapping [[some 5, some 5]]).mapping (1, 1) = some 5 := by
  decide

/-- Claim C5 (amended): duplicate channel values are tolerated without
error, but nothing is overwritten: the mapping is keyed by `(row, col)`
position, and equals exactly the enumeration of all populated integer
cells with their positions — a duplicated channel stays associated with
all of its positions. -/
theorem read_template_mapping_entries (g : List (List (Option ℤ))) :
    (read_template_mapping g).mapping = gridEntries 1 g := by
  have h := scanRows_mapping g 1 ⟨[], 0, 0⟩ (by intro p hp; cases hp)
  simpa using h

/-- Claim C6 (counterexample): a block emitted with no delimiter ever
seen is titled `"Unknown"` (capital U), not the claimed sentinel
`"unknown"`. -/
theorem sentinel_is_capital_unknown :
    parse_data_file ["chnl 1, valid 1, temp 5"] = .ok ([[(1, 5)]], ["Unknown"])
    ∧ "Unknown" ≠ "unknown" := by decide

/-- Claim C6 (amended): with the sentinel corrected to `"Unknown"`:
(a) if the log contains no delimiter line, every emitted title is
`"Unknown"`; (b) if valid readings accumulate before the first
delimiter line, the first emitted title is `"Unknown"`. -/
theorem titles_unknown_when_no_sep_before :
    (∀ (ls : List String) (bs : List Dict) (ts : List String),
        (∀ l ∈ ls, isSepLine l = false) →
        parse_data_file ls = .ok (bs, ts) →
        ∀ t ∈ ts, t = "Unknown")
    ∧ (∀ (pre : List String) (l : String) (rest : List String)
          (cur : Dict) (bs : List Dict) (ts : List String),
        (∀ x ∈ pre, isSepLine x = false) →
        isSepLine l = true →
        pre.foldlM dataLineStep [] = .ok cur →
        cur ≠ [] →
        parse_data_file (pre ++ l :: rest) = .ok (bs, ts) →
        ts.head? = some "Unknown") := by
  constructor
  · intro ls bs ts hns hp
    rw [parse_eq_parseAux] at hp
    rw [parseAux_no_sep ls [] none hns] at hp
    cases hf : List.foldlM dataLineStep [] ls with
    | error e => rw [hf] at hp; simp at hp
    | ok d =>
      rw [hf] at hp
      have hp2 : Except.ok (if d = [] then ([], [])
          else ([d], [titleOrUnknown none])) = Except.ok (bs, ts) := hp
      by_cases hd : d = []
      · rw [if_pos hd] at hp2
        cases hp2
        simp
      · rw [if_neg hd] at hp2
        cases hp2
        simp [titleOrUnknown]
  · intro pre l rest cur bs ts hpre hl hfold hcur hp
    rw [parse_eq_parseAux] at hp
    rw [parseAux_append_no_sep pre (l :: rest) [] none hpre] at hp
    rw [hfold] at hp
    have hp2 : parseAux cur none (l :: rest) = .ok (bs, ts) := hp
    have hds : ∃ ds, matchSeparator (pyStrip l.data) = some ds := by
      unfold isSepLine at hl
      cases hm : matchSeparator (pyStrip l.data) with
      | none => rw [hm] at hl; simp at hl
      | some ds => exact ⟨ds, rfl⟩
    obtain ⟨ds, hds⟩ := hds
    rw [parseAux, hds] at hp2
    have hp3 : (parseAux [] (some (String.mk ds)) rest).map
        (fun p => if cur = [] then p else (cur :: p.1, titleOrUnknown none :: p.2))
        = Except.ok (bs, ts) := hp2
    cases hq : parseAux [] (some (String.mk ds)) rest with
    | error e => rw [hq] at hp3; simp [Except.map] at hp3
    | ok p =>
      rw [hq] at hp3
      simp only [Except.map] at hp3
      rw [if_neg hcur] at hp3
      cases hp3
      rfl

/-- Claim C6 (witness): concrete instances of both parts. -/
theorem titles_unknown_when_no_sep_before_witness :
    parse_data_file (["chnl 2, valid 1, temp 8"] ++ "#####3#####" :: [])
        = .ok ([[(2, 8)]], ["Unknown"])
    ∧ (["Unknown"] : List String).head? = some "Unknown" :=
  ⟨by decide,
   titles_unknown_when_no_sep_before.2 ["chnl 2, valid 1, temp 8"] "#####3#####" []
     [(2, 8)] [[(2, 8)]] ["Unknown"] (by decide) (by decide) (by decide) (by decide)
     (by decide)⟩

/-- Claim C7: for every list of genuine blocks (no duplicate channel
keys within a block) and every channel, the aggregator's entry for the
channel is the sum of its per-block readings divided by the number of
blocks containing it; a channel present in no block is absent (`none`),
and the empty block list yields the empty map. -/
theorem calculate_average_temps_spec (blocks : List Dict) (c : ℤ)
    (hb : ∀ b ∈ blocks, (b.map Prod.fst).Nodup) :
    calculate_average_temps [] = []
    ∧ pyLookup (calculate_average_temps blocks) c
        = (if blocks.filterMap (fun b => pyLookup b c) = [] then none
           else some ((blocks.filterMap (fun b => pyLookup b c)).sum
               / ((blocks.filterMap (fun b => pyLookup b c)).length : ℚ))) := by
  constructor
  · rfl
  · simp only [calculate_average_temps]
    rw [map_avg_lookup]
    rw [blocks_fold_lookup blocks [] c]
    rw [← collectVals_eq_filterMap c blocks hb]
    by_cases hv : collectVals c blocks = []
    · simp [pyLookup, hv]
    · simp [pyLookup, hv]

/-- Claim C7 (witness): channel 1 appears in two of three blocks with
readings 10 and 30; its average is 20. -/
theorem calculate_average_temps_spec_witness :
    pyLookup (calculate_average_temps [[(1, 10)], [(1, 30)], [(2, 7)]]) 1 = some 20 := by
  have h := (calculate_average_temps_spec [[(1, 10)], [(1, 30)], [(2, 7)]] 1 (by decide)).2
  have hv : ([[(1, 10)], [(1, 30)], [(2, 7)]] : List Dict).filterMap
      (fun b => pyLookup b 1) = [10, 30] := by decide
  rw [h, hv]
  rw [if_neg (by decide : ¬([10, 30] : List ℚ) = [])]
  norm_num [List.sum_cons, List.sum_nil]

/-- Claim C8: whenever `parse_data_file` returns, its block list is
exactly the per-region parse of the delimiter-delimited regions keeping
only the non-empty dicts — in particular every emitted block is
non-empty, and an empty region (e.g. between two adjacent delimiter
lines) emits no block. -/
theorem parse_blocks_are_nonempty_regions (ls : List String) (bs : List Dict)
    (ts : List String) (h : parse_data_file ls = .ok (bs, ts)) :
    regionBlocks [] (regionsOf ls) = .ok bs ∧ ∀ b ∈ bs, b ≠ [] := by
  rw [parse_eq_parseAux] at h
  have h2 := parseAux_fst_eq_regionBlocks ls [] none
  rw [h] at h2
  simp only [Except.map] at h2
  exact ⟨h2.symm, regionBlocks_mem_ne_nil (regionsOf ls) [] bs h2.symm⟩

/-- Claim C8 (witness): two adjacent delimiters followed by one valid
reading yield exactly one block. -/
theorem parse_blocks_are_nonempty_regions_witness :
    regionBlocks [] (regionsOf ["#####1#####", "#####2#####", "chnl 3, valid 1, temp 7"])
        = .ok [[(3, 7)]]
    ∧ ∀ b ∈ [[((3 : ℤ), (7 : ℚ))]], b ≠ [] :=
  parse_blocks_are_nonempty_regions
    ["#####1#####", "#####2#####", "chnl 3, valid 1, temp 7"] [[(3, 7)]] ["2"] (by decide)

/-- Claim C9: the color-scale planner returns no spec exactly on the
empty value list; on a non-empty list it returns the list's minimum and
maximum with mid their arithmetic mean and the fixed green/yellow/red
anchors; on `[5, 15]` it returns (5, 10, 15). -/
theorem planColorScale_spec :
    planColorScale [] = none
    ∧ (∀ l : List ℚ, l ≠ [] → ∃ mn mx, planColorScale l
          = some ⟨mn, (mn + mx) / 2, mx, "00FF00", "FFFF00", "FF0000"⟩
        ∧ mn ∈ l ∧ mx ∈ l ∧ ∀ x ∈ l, mn ≤ x ∧ x ≤ mx)
    ∧ planColorScale [5, 15] = some ⟨5, 10, 15, "00FF00", "FFFF00", "FF0000"⟩ := by
  refine ⟨rfl, ?_, ?_⟩
  · intro l hl
    cases l with
    | nil => exact absurd rfl hl
    | cons t ts =>
      refine ⟨ts.foldl min t, ts.foldl max t, rfl, foldl_min_mem ts t, foldl_max_mem ts t,
        fun x hx => ⟨foldl_min_le ts t x hx, le_foldl_max ts t x hx⟩⟩
  · simp [planColorScale, min_def, max_def]
    norm_num

/-- Claim C9 (witness): concrete instance of the non-empty case. -/
theorem planColorScale_spec_witness :
    ∃ mn mx, planColorScale [(3 : ℚ), 7]
        = some ⟨mn, (mn + mx) / 2, mx, "00FF00", "FFFF00", "FF0000"⟩
      ∧ mn ∈ [(3 : ℚ), 7] ∧ mx ∈ [(3 : ℚ), 7]
      ∧ ∀ x ∈ [(3 : ℚ), 7], mn ≤ x ∧ x ≤ mx :=
  planColorScale_spec.2.1 [(3 : ℚ), 7] (by decide)

/-- Claim C10: whenever `parse_data_file` returns, the block list and
the title list have equal length (they are appended together at every
emission point). -/
theorem parse_blocks_titles_length_eq (ls : List String) (bs : List Dict)
    (ts : List String) (h : parse_data_file ls = .ok (bs, ts)) :
    bs.length = ts.length := by
  rw [parse_eq_parseAux] at h
  exact parseAux_length_eq ls [] none bs ts h

/-- Claim C10 (witness): concrete instance. -/
theorem parse_blocks_titles_length_eq_witness :
    parse_data_file ["#####4#####", "chnl 1, valid 1, temp 2", "#####5#####"]
        = .ok ([[(1, 2)]], ["4"])
    ∧ ([[((1 : ℤ), (2 : ℚ))]] : List Dict).length = (["4"] : List String).length :=
  ⟨by decide,
   parse_blocks_titles_length_eq ["#####4#####", "chnl 1, valid 1, temp 2", "#####5#####"]
     [[(1, 2)]] ["4"] (by decide)⟩
